import Mathlib

/-!
Shallow embedding of the event/disposable/cancellation core of the
`acedge-http` repository, together with proofs settling the frozen claims.

The embedding follows the TypeScript sources:
  - `src/@internals/errors/exception.ts`  (error codes),
  - `src/@internals/events.ts`            (Event, Emitter, EventMonitoring),
  - `src/@internals/disposable.ts`        (DisposableStore, Disposable base),
  - `src/unnamed/part_001`                (createCancelablePromise).
The cancellation module (`./cancellation`) is not present under `src/`
(only its test file is), so the CancellationTokenSource behaviour used by
Event and createCancelablePromise is modelled from the spec where needed;
those definitions carry a `Modelled from the spec:` doc comment.

Conventions: JS numbers that only ever hold integers are modelled as
`Int`/`Nat`; the fractional countdown `threshold / 2` of the leakage
monitor is modelled in doubled units so that all arithmetic stays exact;
JS `Map`/`Set` insertion-ordered collections are modelled as lists.
-/

/-- Machine-readable error codes, from `errors/exception.ts` (`ERROR_CODE`).
Only the sign-encoded numeric values are irrelevant to the claims, so the
codes are modelled as an enumeration. -/
inductive ErrCode
  | ERR_UNKNOWN_ERROR
  | ERR_ONCE_WAS_CALLED_AGAIN
  | ERR_TOKEN_CANCELLED
  | ERR_RESOURCE_DISPOSED
  | ERR_LISTENER_LEAK
  | ERR_INVALID_ARGUMENT
  | ERR_INVALID_TYPE
  | ERR_LISTENER_REFUSAL
  deriving DecidableEq, Repr, BEq

/-!
## The Bound Listener (`Event` class, events.ts lines 25-112)

An `Event` owns an optional `CancellationTokenSource`.  The source itself
lives in the missing `cancellation.ts`; all the Event code reads from it is
`token.isCancellationRequested`, `cancel()` and `dispose()`.  Modelled from
the spec: a source owns one token whose `requested` flag is monotone
false-to-true under `cancel()`; `dispose` releases the source.  We therefore
represent `_source` as `Option Bool`: `none` when `_source` is `null`
(constructed with `cancelable: false`, or nulled out by `dispose`), and
`some b` when a source exists whose token has `isCancellationRequested = b`.
-/

/-- State of one `Event` (Bound Listener) object: the `disposed` flag of the
`Disposable.Disposable` base, the resolved option flags, the `_state.callCount`
counter and the `_source` field as described above. -/
structure EventState where
  disposed : Bool
  once : Bool
  cancelable : Bool
  callCount : Nat
  sourceRequested : Option Bool
  deriving DecidableEq, Repr

namespace EventState

/-- `new Event(listener, options)` (events.ts lines 31-54): the resolved
cancelable flag is `options?.cancelable !== false` (default `true`), and a
fresh `CancellationTokenSource` is allocated exactly when it is `true`. -/
def mkFromOpts (cancelableOpt : Option Bool) (once : Bool) : EventState :=
  let c : Bool := cancelableOpt != some false
  { disposed := false, once := once, cancelable := c, callCount := 0,
    sourceRequested := if c then some false else none }

/-- The `Event` the Emitter constructs around a raw callback
(events.ts lines 296-304): it passes `once: options?.once ?? false` and
`cancelable: options?.cancelable ?? false`. -/
def emitterWrapRaw (cancelableOpt : Option Bool) (once : Bool) : EventState :=
  mkFromOpts (some (cancelableOpt.getD false)) once

/-- `Event.prototype.$call` (events.ts lines 60-85).  Returns either the
thrown structured error, or the updated event state paired with the token
value handed to the callback: `some b` is the owned source token (with
`isCancellationRequested = b`), `none` is `CancellationToken.None`. -/
def callStep (ev : EventState) : Except ErrCode (EventState × Option Bool) :=
  if ev.disposed then
    .error .ERR_RESOURCE_DISPOSED
  else if ev.once && decide (ev.callCount > 0) then
    .error .ERR_ONCE_WAS_CALLED_AGAIN
  else
    -- stale-token replacement (lines 69-76)
    let ev :=
      if ev.sourceRequested = some true && ev.cancelable
          && !(ev.once && decide (ev.callCount > 0)) then
        { ev with sourceRequested := some false }
      else ev
    .ok ({ ev with callCount := ev.callCount + 1 }, ev.sourceRequested)

/-- `Event.prototype.isCancellationRequested` (events.ts lines 87-89). -/
def isCancellationRequested (ev : EventState) : Bool :=
  ev.sourceRequested.getD false

/-- `Event.prototype.cancel` (events.ts lines 95-100): a no-op once
disposed, otherwise forwards to the owned source if present. -/
def cancelE (ev : EventState) : EventState :=
  if ev.disposed then ev
  else
    match ev.sourceRequested with
    | some _ => { ev with sourceRequested := some true }
    | none => ev

/-- `Event.prototype.dispose` (events.ts lines 102-111): cancels, then
releases and nulls the owned source and latches the disposed flag. -/
def disposeE (ev : EventState) : EventState :=
  let ev1 := ev.cancelE
  if ev1.disposed then ev1
  else { ev1 with sourceRequested := none, disposed := true }

end EventState

/-!
## Disposables (`disposable.ts`)

Child disposables are identified by `Nat` ids (JS object identities); the
operations report the observable effects: the updated container, whether a
diagnostic was emitted, and which children were released by the call.
The JS `Set` backing `#toDispose` / `#lifecycle` is modelled as a list in
insertion order (the callers of these claims never add one object twice).
-/

/-- State of a `DisposableStore` (disposable.ts lines 16-101). -/
structure DStore where
  isDisposed : Bool
  toDispose : List Nat
  deriving DecidableEq, Repr

namespace DStore

/-- `DisposableStore.prototype.clear` (lines 44-52): releases every
registered disposable and empties the set, without latching the disposed
flag.  Returns the released children. -/
def clearS (s : DStore) : DStore × List Nat :=
  ({ s with toDispose := [] }, s.toDispose)

/-- `DisposableStore.prototype.dispose` (lines 27-32): a no-op when already
disposed, otherwise latches the flag and clears. -/
def disposeS (s : DStore) : DStore × List Nat :=
  if s.isDisposed then (s, [])
  else ({ isDisposed := true, toDispose := [] }, s.toDispose)

/-- `DisposableStore.prototype.add` (lines 57-73) for a child `o` that is
not the store itself.  Result: (updated store, diagnostic emitted,
children released by this call).  When the store is already disposed the
code only warns that the object "will be leaked" — it does not register
and does not dispose `o`. -/
def add (s : DStore) (o : Nat) : DStore × Bool × List Nat :=
  if s.isDisposed then (s, true, [])
  else ({ s with toDispose := s.toDispose ++ [o] }, false, [])

end DStore

/-- State of the `Disposable.Disposable` base class
(disposable.ts lines 105-136): a `#lifecycle` set of owned children and a
disposed flag. -/
structure DBase where
  isDisposed : Bool
  lifecycle : List Nat
  deriving DecidableEq, Repr

namespace DBase

/-- `Disposable.Disposable.prototype.dispose` (lines 110-115): no-op when
already disposed, otherwise latches and releases the owned children. -/
def disposeB (d : DBase) : DBase × List Nat :=
  if d.isDisposed then (d, [])
  else ({ isDisposed := true, lifecycle := [] }, d.lifecycle)

/-- `Disposable.Disposable.prototype._register` (lines 126-135): after
disposal it warns and immediately releases the child; otherwise it adds the
child to the lifecycle set.  Result: (state, diagnostic, released). -/
def register (d : DBase) (t : Nat) : DBase × Bool × List Nat :=
  if d.isDisposed then (d, true, [t])
  else ({ d with lifecycle := d.lifecycle ++ [t] }, false, [])

end DBase

/-!
## The Cancelable Operation Bridge (`createCancelablePromise`, part_001)

The function couples one `CancellationTokenSource` to one promised result.
Modelled from the spec: the `CancellationTokenSource` owned here (from the
missing `cancellation.ts`) has a monotone token flag; `cancel()` on a
requested or disposed source is a no-op and never throws; disposing
releases listener storage.  Its single `onCancellationRequested`
subscription is the one made in part_001 lines 18-23.

One model event corresponds to one scheduled callback execution of the JS
runtime: `cancel` runs the handle's `cancel()` together with the delivery
of the cancellation listener (nothing else can interleave between them in
the claims' scenarios), and `settleOk`/`settleErr` run the fulfilment /
rejection handler installed on the wrapped thenable (lines 25-41).
-/

/-- The value an underlying operation resolves to; only its disposability
is observable to the bridge. -/
structure CPValue where
  disposable : Bool
  deriving DecidableEq, Repr

/-- Observable settlement of the bridge's outer promise. -/
inductive CPOutcome
  | value (v : CPValue)
  | err (e : ErrCode)
  deriving DecidableEq, Repr

/-- State of one `createCancelablePromise` instance: the spec-modelled
source/token pair, the `isCancelled` closure flag, the `sub` registration,
the outer promise settlement (first write wins) and how many times the
resolved value's `dispose()` has been invoked. -/
structure CPState where
  tokenRequested : Bool
  sourceDisposed : Bool
  subActive : Bool
  isCancelled : Bool
  settled : Option CPOutcome
  valueDisposeCount : Nat
  deriving DecidableEq, Repr

namespace CPState

/-- State right after `createCancelablePromise` ran its synchronous part:
fresh source, `sub` registered, nothing settled. -/
def init : CPState :=
  { tokenRequested := false, sourceDisposed := false, subActive := true,
    isCancelled := false, settled := none, valueDisposeCount := 0 }

/-- Settle the outer promise: JS promises keep their first settlement. -/
def settle (s : CPState) (o : CPOutcome) : CPState :=
  match s.settled with
  | some _ => s
  | none => { s with settled := some o }

/-- The handle's `cancel()` (part_001 lines 45-48): `source.cancel()` then
`source.dispose()`.  When the token transitions to requested and the
subscription is still active, the listener of lines 18-23 runs: it sets
`isCancelled`, disposes the subscription and rejects with
`ERR_TOKEN_CANCELLED`.  Cancelling an already-requested or disposed source
is a no-op (spec section 3). -/
def cancelH (s : CPState) : CPState :=
  let s :=
    if s.sourceDisposed || s.tokenRequested then s
    else
      let s := { s with tokenRequested := true }
      if s.subActive then
        ({ s with isCancelled := true, subActive := false }).settle
          (.err .ERR_TOKEN_CANCELLED)
      else s
  { s with sourceDisposed := true }

/-- The fulfilment handler (part_001 lines 26-35): dispose subscription and
source; if no cancel was requested, resolve the outer promise with the
value; otherwise inspect the value and dispose it when it is a
`Disposable`. -/
def settleOk (s : CPState) (v : CPValue) : CPState :=
  let s := { s with subActive := false, sourceDisposed := true }
  if s.isCancelled then
    if v.disposable then
      { s with valueDisposeCount := s.valueDisposeCount + 1 }
    else s
  else s.settle (.value v)

/-- The rejection handler (part_001 lines 36-41). -/
def settleErr (s : CPState) : CPState :=
  let s := { s with subActive := false, sourceDisposed := true }
  s.settle (.err .ERR_UNKNOWN_ERROR)

/-- One scheduled callback execution. -/
inductive Ev
  | cancel
  | settleOk (v : CPValue)
  | settleErr
  deriving DecidableEq, Repr

/-- Run a sequence of scheduled executions. -/
def run (s : CPState) : List Ev → CPState
  | [] => s
  | e :: rest =>
    (match e with
     | .cancel => s.cancelH
     | .settleOk v => s.settleOk v
     | .settleErr => s.settleErr).run rest

end CPState

/-!
## Leakage Monitor (`EventMonitoring.LeakageMonitor`, events.ts 180-245)

Call-site stack traces are abstracted as `Nat` values (the code only ever
compares the captured `Stacktrace.value` string for equality, so any type
with decidable equality is a faithful stand-in).  The frequency table is a
JS `Map`, modelled as an insertion-ordered association list.  The JS
countdown holds `threshold / 2` after a reset, which can be fractional;
`warnCountdown2` stores twice its value so all arithmetic is exact
(`x <= 0` iff `2x <= 0`).
-/

/-- Insertion-ordered lookup in the frequency table, `Map.get || 0`. -/
def lookupStack (l : List (Nat × Int)) (k : Nat) : Int :=
  ((l.find? (fun p => p.1 = k)).map (fun p => p.2)).getD 0

/-- `Map.set`: update in place when present, append when fresh. -/
def setStack : List (Nat × Int) → Nat → Int → List (Nat × Int)
  | [], k, v => [(k, v)]
  | p :: rest, k, v =>
    if p.1 = k then (k, v) :: rest else p :: setStack rest k v

/-- State of one `LeakageMonitor`: the configured threshold, the
stack-frequency table and (twice) the warn countdown. -/
structure LeakMonitor where
  threshold : Int
  table : List (Nat × Int)
  warnCountdown2 : Int
  deriving DecidableEq, Repr

namespace LeakMonitor

/-- `LeakageMonitor.prototype.getMostFrequentStack` (lines 229-244): scan
the table in insertion order, replacing the candidate on strictly greater
count. -/
def getMostFrequent (m : LeakMonitor) : Option (Nat × Int) :=
  m.table.foldl
    (fun acc p =>
      match acc with
      | none => some p
      | some q => if q.2 < p.2 then some p else some q)
    none

/-- `LeakageMonitor.prototype.check` (lines 196-227).  Returns the updated
monitor, whether the `ERR_LISTENER_LEAK` diagnostic was raised on this
call, and the data of the returned cleanup closure (`some stack`) when one
was produced.  `Math.ceil` is not involved here; `t / 2` is kept doubled. -/
def check (m : LeakMonitor) (stack : Nat) (lc : Int) : LeakMonitor × Bool × Option Nat :=
  if m.threshold ≤ 0 || lc < m.threshold then (m, false, none)
  else
    let c := lookupStack m.table stack
    let table' := setStack m.table stack (c + 1)
    let cd := m.warnCountdown2 - 2
    if cd ≤ 0 then
      ({ m with table := table', warnCountdown2 := m.threshold }, true, some stack)
    else
      ({ m with table := table', warnCountdown2 := cd }, false, some stack)

/-- The cleanup closure returned by `check` (lines 223-226): decrement the
captured stack's count. -/
def cleanupStack (m : LeakMonitor) (stack : Nat) : LeakMonitor :=
  { m with table := setStack m.table stack (lookupStack m.table stack - 1) }

end LeakMonitor

/-!
## The Emitter (events.ts 249-599)

Event keys are modelled as `Nat` (the code accepts `string | symbol` keys
and throws `ERR_INVALID_TYPE` for anything else; in the embedding every key
value is well-typed, so that guard never fires).  Each registration wraps
the listener in a fresh `UniqueContainer`, a distinct JS object identity,
modelled by the per-emitter counter `nextId`; the keyed `SetMap` of
containers is modelled as one insertion-ordered list of registrations
tagged with their key.  The profiling monitor only collects timing data and
is not involved in any claim, so it is omitted.  `cbRaises` records the
behaviour of the user callback when invoked: `none` returns normally,
`some e` throws the structured error `e` on every call.
-/

/-- One registered listener: its event key, the container identity, the
identity of the raw callback (`kListener`), the wrapped Event state and the
user callback's behaviour. -/
structure Reg where
  key : Nat
  id : Nat
  cbId : Nat
  ev : EventState
  cbRaises : Option ErrCode
  deriving DecidableEq, Repr

/-- The disposable returned by a registration: either the shared no-op
`Disposable.None` or a real handle carrying the data captured by the
closure of events.ts lines 336-339 (the key, the container, and the leak
monitor cleanup). -/
inductive Handle
  | noop
  | reg (key : Nat) (id : Nat) (cleanup : Option Nat)
  deriving DecidableEq, Repr

/-- The lifecycle hooks an `EmitterOptions` object can observe. -/
inductive Hook
  | willAddFirst
  | didAddFirst
  | didAdd
  | willRemove
  | didRemoveLast
  deriving DecidableEq, Repr

/-- State of one `Emitter`: the `_state` record, the listener table, the
optional leakage monitor, the owned `_disposables` store, plus the
observable outputs — every error handed to the configured error handler
and every lifecycle hook fired, in order. -/
structure EmitterState where
  disposed : Bool
  size : Int
  listeners : List Reg
  nextId : Nat
  monitor : Option LeakMonitor
  store : DStore
  handlerErrors : List ErrCode
  hooks : List Hook
  deriving DecidableEq, Repr

namespace EmitterState

/-- `new Emitter(options)` (lines 259-271): the leakage monitor exists
exactly when `leakWarningThreshold` is a number greater than zero. -/
def mkEmitter (leakWarningThreshold : Option Int) : EmitterState :=
  { disposed := false, size := 0, listeners := [], nextId := 0,
    monitor :=
      match leakWarningThreshold with
      | some t => if 0 < t then some ⟨t, [], 0⟩ else none
      | none => none,
    store := ⟨false, []⟩, handlerErrors := [], hooks := [] }

/-- `Emitter.prototype._checkLeakageBeforeAdd` (lines 482-505): refuse when
disposed, or when a monitor exists and the overall listener count strictly
exceeds the squared threshold (raising `ERR_LISTENER_REFUSAL` to the
configured error handler in that case). -/
def checkLeakageBeforeAdd (s : EmitterState) : EmitterState × Bool :=
  if s.disposed then (s, false)
  else
    match s.monitor with
    | some m =>
      if m.threshold ^ 2 < s.size then
        ({ s with handlerErrors := s.handlerErrors ++ [.ERR_LISTENER_REFUSAL] }, false)
      else (s, true)
    | none => (s, true)

/-- `Math.ceil(t * 0.2)` for an integral threshold `t` (line 319); exact
for the integer thresholds the emitter is configured with. -/
def ceilFifth (t : Int) : Int := (t + 4) / 5

/-- `Emitter.prototype._addListener` (lines 285-348) after the listener has
been wrapped: the leak-refusal gate, the disposed gate, the optional stack
capture and monitor check, the add-side lifecycle hooks, and the
construction of the registration handle.  The optional push of the handle
into a caller-supplied `options.disposables` collection (lines 341-345) is
not modelled ; no claim mentions it. -/
def addListener (s : EmitterState) (key : Nat) (ev : EventState) (cbId : Nat)
    (trace : Nat) (cbRaises : Option ErrCode) : EmitterState × Handle :=
  let (s, pass) := s.checkLeakageBeforeAdd
  if !pass then (s, .noop)
  else if s.disposed then (s, .noop)
  else
    let id := s.nextId
    let s := { s with nextId := id + 1 }
    let (s, cleanup) : EmitterState × Option Nat :=
      match s.monitor with
      | some m =>
        if ceilFifth m.threshold ≤ s.size then
          let (m', warned, cl) := m.check trace (s.size + 1)
          let s := { s with monitor := some m' }
          let s :=
            if warned then
              { s with handlerErrors := s.handlerErrors ++ [.ERR_LISTENER_LEAK] }
            else s
          (s, cl)
        else (s, none)
      | none => (s, none)
    let s : EmitterState := if s.size = 0 then { s with hooks := s.hooks ++ [.willAddFirst] } else s
    let s : EmitterState := { s with listeners := s.listeners ++ [Reg.mk key id cbId ev cbRaises] }
    let s : EmitterState := { s with size := s.size + 1 }
    let s : EmitterState := if s.size = 1 then { s with hooks := s.hooks ++ [.didAddFirst] } else s
    let s : EmitterState := { s with hooks := s.hooks ++ [.didAdd] }
    (s, .reg key id cleanup)

/-- `Emitter.prototype.on` with a raw callback (lines 350-364): wraps it
with `once: false` and registers. -/
def onRaw (s : EmitterState) (key : Nat) (cbId : Nat) (cancelableOpt : Option Bool)
    (trace : Nat) (cbRaises : Option ErrCode) : EmitterState × Handle :=
  s.addListener key (EventState.emitterWrapRaw cancelableOpt false) cbId trace cbRaises

/-- `Emitter.prototype.once` with a raw callback (lines 366-380). -/
def onceRaw (s : EmitterState) (key : Nat) (cbId : Nat) (cancelableOpt : Option Bool)
    (trace : Nat) (cbRaises : Option ErrCode) : EmitterState × Handle :=
  s.addListener key (EventState.emitterWrapRaw cancelableOpt true) cbId trace cbRaises

end EmitterState

/-- Remove the first element satisfying `p`, reporting failure — the shape
of `SetMap.delete`'s boolean result. -/
def eraseFirstBy (p : Reg → Bool) : List Reg → Option (List Reg)
  | [] => none
  | r :: rs => if p r then some rs else (eraseFirstBy p rs).map (r :: ·)

namespace EmitterState

/-- `Emitter.prototype._removeUniqueListener` (lines 507-566).  `evKey` is
the optional event key of the call; the `none` form searches every key for
the container, which - containers being unique per registration - amounts
to erasing the first registration with that identity.  When the container
is not found the method throws a plain Exception; the state mutated so far
(the `onWillRemoveListener` hook) is kept, as in JS. -/
def removeUnique (s : EmitterState) (id : Nat) (evKey : Option Nat) :
    EmitterState × Option String :=
  if s.disposed then (s, none)
  else
    let s := { s with hooks := s.hooks ++ [.willRemove] }
    if s.size = 0 then (s, none)
    else
      let p : Reg → Bool :=
        match evKey with
        | some k => fun r => r.key = k && r.id = id
        | none => fun r => r.id = id
      match eraseFirstBy p s.listeners with
      | none => (s, some "unknown-listener")
      | some l' =>
        -- `contained.value.dispose()` runs here; the Event object is no
        -- longer reachable from the emitter afterwards.
        let s := { s with listeners := l', size := s.size - 1 }
        if s.size = 0 then ({ s with hooks := s.hooks ++ [.didRemoveLast] }, none)
        else (s, none)

/-- Disposing a registration handle (the closure of lines 336-339): run the
captured leak-monitor cleanup, then de-register.  Disposing the shared
no-op handle `Disposable.None` does nothing. -/
def disposeHandle (s : EmitterState) (h : Handle) : EmitterState × Option String :=
  match h with
  | .noop => (s, none)
  | .reg k id cleanup =>
    let s :=
      match cleanup, s.monitor with
      | some tr, some m => { s with monitor := some (m.cleanupStack tr) }
      | _, _ => s
    s.removeUnique id (some k)

/-- `Emitter.prototype.off` with a raw callback (lines 382-402): find the
first registration under the key whose underlying raw callback identity
matches, and remove it; silent no-op when there is none. -/
def offE (s : EmitterState) (key : Nat) (cbId : Nat) : EmitterState × Option String :=
  match (s.listeners.filter (fun r => r.key = key)).find? (fun r => r.cbId = cbId) with
  | none => (s, none)
  | some r => s.removeUnique r.id (some key)

/-- `Emitter.prototype.clear` (lines 439-465). -/
def clearE (s : EmitterState) (key : Option Nat) : EmitterState :=
  if s.disposed then s
  else
    let s : EmitterState := { s with hooks := s.hooks ++ [.willRemove] }
    match key with
    | none =>
      { s with listeners := [], size := 0, hooks := s.hooks ++ [.didRemoveLast] }
    | some k =>
      let removed := ((s.listeners.filter (fun r => r.key = k)).length : Int)
      let s := { s with listeners := s.listeners.filter (fun r => !(r.key = k)),
                        size := s.size - removed }
      if s.size = 0 then { s with hooks := s.hooks ++ [.didRemoveLast] } else s

/-- `Emitter.prototype.dispose` (lines 467-480): idempotent; releases the
owned store, disposes and drops every listener, fires
`onDidRemoveLastListener`, releases the monitor and latches. -/
def disposeEmitterE (s : EmitterState) : EmitterState :=
  if s.disposed then s
  else
    let s : EmitterState := { s with store := (s.store.disposeS).1 }
    let s : EmitterState := { s with listeners := [], size := 0 }
    let s : EmitterState := { s with hooks := s.hooks ++ [.didRemoveLast] }
    let s : EmitterState :=
      match s.monitor with
      | some m => { s with monitor := some { m with table := [] } }
      | none => s
    { s with disposed := true }

/-- `Emitter.prototype.listenersCount` without a key (lines 429-437). -/
def listenersCountAll (s : EmitterState) : Int :=
  if s.disposed then 0 else s.size

/-- `Emitter.prototype.listenersCount` with a key. -/
def listenersCountKey (s : EmitterState) (k : Nat) : Int :=
  if s.disposed then 0 else ((s.listeners.filter (fun r => r.key = k)).length : Int)

/-- `Emitter.prototype.hasListeners` without a key (lines 419-427). -/
def hasListenersAll (s : EmitterState) : Bool :=
  if s.disposed then false else decide (0 < s.size)

/-- The two error codes `_deliver` converts into silent listener removal
(events.ts lines 582-594). -/
def silentRemoval (e : ErrCode) : Bool :=
  e = .ERR_ONCE_WAS_CALLED_AGAIN || e = .ERR_RESOURCE_DISPOSED

end EmitterState

/-- Replace the Event state stored under container identity `id`. -/
def updMap (l : List Reg) (id : Nat) (ev' : EventState) : List Reg :=
  l.map (fun r => if r.id = id then { r with ev := ev' } else r)

namespace EmitterState

/-- Write back the mutation `$call` performed on the listener's Event
object (the call counter / refreshed source live on the object stored in
the table). -/
def updateEv (s : EmitterState) (id : Nat) (ev' : EventState) : EmitterState :=
  { s with listeners := updMap s.listeners id ev' }

/-- `Emitter.prototype._deliver` (events.ts lines 568-598) for the listener
with container identity `id`.  A configured error handler always exists
(`onListenerError || onUnexpected`), so the unguarded call of line 575 is
dead.  `$call` is the two phases of `Reg`: the wrapper step (`callStep`)
and then the user callback (`cbRaises`); an exception from either lands in
the same `catch`.  The second component is an exception escaping `_deliver`
itself (only the unknown-listener throw of `_removeUniqueListener` could). -/
def deliverOne (s : EmitterState) (id : Nat) : EmitterState × Option String :=
  match s.listeners.find? (fun r => r.id = id) with
  | none => (s, none)
  | some r =>
    if s.disposed then (s, none)
    else
      match r.ev.callStep with
      | .error _ => s.removeUnique id none
      | .ok (ev', _tok) =>
        let s := s.updateEv id ev'
        match r.cbRaises with
        | none => (s, none)
        | some e =>
          if silentRemoval e then s.removeUnique id none
          else ({ s with handlerErrors := s.handlerErrors ++ [e] }, none)

/-- The loop of `fire` (lines 410-414): deliver to each container of the
key's set, in insertion order.  JS `Set` iteration never revisits an
element and skips elements deleted mid-iteration; `_deliver` only ever
removes the container currently being delivered, so iterating the
snapshot of identities and looking each up in the current state is exact. -/
def deliverList (s : EmitterState) : List Nat → EmitterState × Option String
  | [] => (s, none)
  | id :: rest =>
    match s.deliverOne id with
    | (s', none) => s'.deliverList rest
    | (s', some e) => (s', some e)

/-- `Emitter.prototype.fire` (events.ts lines 404-417).  The profiling
monitor opened/closed around the loop collects timing only and is omitted.
The second component is an exception escaping to the caller of `fire`. -/
def fireKey (s : EmitterState) (k : Nat) : EmitterState × Option String :=
  if s.disposed then (s, none)
  else if 0 < s.size then
    s.deliverList ((s.listeners.filter (fun r => r.key = k)).map (fun r => r.id))
  else (s, none)

end EmitterState

/-!
## Operation sequences over an Emitter (for the bookkeeping invariant)

The public operations the listener-count claim ranges over.  A
registration-handle dispose is identified by the handle data the closure
captured; sequences may mention arbitrary handles, which subsumes the
handles actually returned by `on`/`once`.
-/

/-- One public Emitter operation. -/
inductive EmitterOp
  | addOn (key cbId trace : Nat)
  | addOnce (key cbId trace : Nat)
  | hdispose (key id : Nat) (cleanup : Option Nat)
  | off (key cbId : Nat)
  | clearKey (key : Nat)
  | clearAll
  | disposeEmitter
  deriving DecidableEq, Repr

namespace EmitterState

/-- Apply one public operation (raw callbacks, no explicit Event options,
callbacks that return normally — the count bookkeeping does not depend on
any of those). -/
def applyOp (s : EmitterState) : EmitterOp → EmitterState
  | .addOn key cbId trace => (s.onRaw key cbId none trace none).1
  | .addOnce key cbId trace => (s.onceRaw key cbId none trace none).1
  | .hdispose key id cleanup => (s.disposeHandle (.reg key id cleanup)).1
  | .off key cbId => (s.offE key cbId).1
  | .clearKey key => s.clearE (some key)
  | .clearAll => s.clearE none
  | .disposeEmitter => s.disposeEmitterE

/-- Apply a finite sequence of public operations, left to right. -/
def applyOps (s : EmitterState) (ops : List EmitterOp) : EmitterState :=
  ops.foldl applyOp s

end EmitterState

/-!
## Derived observables and concrete scenarios used by the claims
-/

/-- The error `_deliver` forwards to the configured error handler when this
listener is fired: `none` when the call succeeds or when the failure is one
of the two silently-removing codes. -/
def Reg.forwardErr (r : Reg) : Option ErrCode :=
  match r.ev.callStep with
  | .error _ => none
  | .ok _ =>
    match r.cbRaises with
    | some e => if EmitterState.silentRemoval e then none else some e
    | none => none

/-- Whether firing this listener fails with a silently-removing code
(either thrown by the `$call` wrapper or by the user callback). -/
def Reg.silentFail (r : Reg) : Bool :=
  match r.ev.callStep with
  | .error _ => true
  | .ok _ =>
    match r.cbRaises with
    | some e => EmitterState.silentRemoval e
    | none => false

/-- All errors a `fire(k)` forwards to the error handler, in delivery
order. -/
def EmitterState.forwardedOf (s : EmitterState) (k : Nat) : List ErrCode :=
  (s.listeners.filter (fun r => r.key = k)).filterMap Reg.forwardErr

/-- The errors the delivery loop is expected to forward, computed against
a snapshot state: one table lookup per delivered container identity, in
delivery order. -/
def expectedForwards (s : EmitterState) : List Nat → List ErrCode
  | [] => []
  | j :: rest =>
    (match s.listeners.find? (fun r => r.id = j) with
     | some r => (Reg.forwardErr r).toList
     | none => []) ++ expectedForwards s rest

/-- A live emitter holding, on key 0, one already-disposed listener (whose
delivery fails with `ERR_RESOURCE_DISPOSED`) followed by one healthy
listener whose callback throws a non-silent error. -/
def fireScenario : EmitterState :=
  let p1 := (EmitterState.mkEmitter none).addListener 0
    { disposed := true, once := false, cancelable := false,
      callCount := 0, sourceRequested := none } 1 0 none
  let p2 := p1.1.addListener 0 (EventState.emitterWrapRaw none false) 2 0
    (some .ERR_UNKNOWN_ERROR)
  p2.1

/-- An emitter (no monitor) holding two listeners on key 0, with the two
registration handles: the setup of the double-dispose scenario. -/
def twoListenerEmitter : EmitterState × Handle × Handle :=
  let p1 := (EmitterState.mkEmitter none).onRaw 0 1 none 0 none
  let p2 := p1.1.onRaw 0 2 none 0 none
  (p2.1, p1.2, p2.2)

/-- Seven registrations on the same key reusing the identical call-site
trace (trace value 7), against an emitter whose leakage monitor has
threshold 3. -/
def leakScenario : EmitterState :=
  EmitterState.applyOps (EmitterState.mkEmitter (some 3))
    (List.replicate 7 (.addOn 0 1 7))


/-- The bookkeeping invariant of the Emitter: the `_state.size` counter
equals the number of registrations across all keys, and a disposed emitter
holds none. -/
def EmitterInv (s : EmitterState) : Prop :=
  s.size = (s.listeners.length : Int) ∧ (s.disposed = true → s.listeners = [])

/-!
## Helper lemmas about list surgery and the removal paths
-/

theorem eraseFirstBy_length {p : Reg → Bool} :
    ∀ {l l' : List Reg}, eraseFirstBy p l = some l' → l.length = l'.length + 1 := by
  intro l
  induction l with
  | nil => intro l' h; simp [eraseFirstBy] at h
  | cons r rs ih =>
    intro l' h
    rw [eraseFirstBy] at h
    by_cases hp : p r
    · simp [hp] at h
      subst h
      simp
    · simp [hp] at h
      obtain ⟨l2, h1, h2⟩ := h
      subst h2
      simp [ih h1]

theorem eraseFirstBy_isSome {p : Reg → Bool} :
    ∀ {l : List Reg}, (∃ x ∈ l, p x = true) → (eraseFirstBy p l).isSome = true := by
  intro l
  induction l with
  | nil => rintro ⟨x, hx, _⟩; simp at hx
  | cons r rs ih =>
    rintro ⟨x, hx, hpx⟩
    rw [eraseFirstBy]
    by_cases hp : p r
    · simp [hp]
    · have hxr : x ≠ r := fun he => hp (he ▸ hpx)
      have hmem : x ∈ rs := by
        rcases List.mem_cons.mp hx with h' | h'
        · exact absurd h' hxr
        · exact h'
      rw [if_neg hp]
      have hrec := ih ⟨x, hmem, hpx⟩
      rcases ho : eraseFirstBy p rs with _ | l2
      · rw [ho] at hrec; simp at hrec
      · simp [ho]

theorem eraseFirstBy_sublist {p : Reg → Bool} :
    ∀ {l l' : List Reg}, eraseFirstBy p l = some l' → l'.Sublist l := by
  intro l
  induction l with
  | nil => intro l' h; simp [eraseFirstBy] at h
  | cons r rs ih =>
    intro l' h
    rw [eraseFirstBy] at h
    by_cases hp : p r
    · simp [hp] at h
      subst h
      exact List.sublist_cons_self r rs
    · simp [hp] at h
      obtain ⟨l2, h1, h2⟩ := h
      subst h2
      exact (ih h1).cons₂ r

theorem eraseFirstBy_find_eq {p q : Reg → Bool} (hpq : ∀ r, q r = true → p r = false) :
    ∀ {l l' : List Reg}, eraseFirstBy p l = some l' → l'.find? q = l.find? q := by
  intro l
  induction l with
  | nil => intro l' h; simp [eraseFirstBy] at h
  | cons r rs ih =>
    intro l' h
    rw [eraseFirstBy] at h
    by_cases hp : p r
    · simp [hp] at h
      subst h
      have hq : q r = false := by
        cases hqr : q r
        · rfl
        · rw [hpq r hqr] at hp; simp at hp
      rw [List.find?_cons_of_neg _ (by simp [hq])]
    · simp [hp] at h
      obtain ⟨l2, h1, h2⟩ := h
      subst h2
      cases hq : q r
      · rw [List.find?_cons_of_neg _ (by simp [hq]),
          List.find?_cons_of_neg _ (by simp [hq])]
        exact ih h1
      · rw [List.find?_cons_of_pos _ hq, List.find?_cons_of_pos _ hq]

theorem eraseFirstBy_find_none {id : Nat} :
    ∀ {l l' : List Reg}, (l.map (fun r => r.id)).Nodup →
      eraseFirstBy (fun r => decide (r.id = id)) l = some l' →
      l'.find? (fun r => decide (r.id = id)) = none := by
  intro l
  induction l with
  | nil => intro l' _ h; simp [eraseFirstBy] at h
  | cons r rs ih =>
    intro l' hnd h
    rw [eraseFirstBy] at h
    simp only [List.map_cons, List.nodup_cons] at hnd
    by_cases hp : r.id = id
    · simp [hp] at h
      subst h
      rw [List.find?_eq_none]
      intro x hx
      simp only [decide_eq_true_eq]
      intro hxid
      exact hnd.1 (hp ▸ hxid ▸ List.mem_map_of_mem (fun r => r.id) hx)
    · simp [hp] at h
      obtain ⟨l2, h1, h2⟩ := h
      subst h2
      rw [List.find?_cons_of_neg _ (by simp [hp])]
      exact ih hnd.2 h1

theorem find_self_of_nodup :
    ∀ (l : List Reg), (l.map (fun r => r.id)).Nodup →
      ∀ r ∈ l, l.find? (fun x => decide (x.id = r.id)) = some r := by
  intro l
  induction l with
  | nil => intro _ r hr; simp at hr
  | cons x xs ih =>
    intro hnd r hr
    simp only [List.map_cons, List.nodup_cons] at hnd
    rcases List.mem_cons.mp hr with he | hm
    · subst he
      rw [List.find?_cons_of_pos _ (by simp)]
    · have hne : x.id ≠ r.id := by
        intro he
        exact hnd.1 (he ▸ List.mem_map_of_mem (fun r => r.id) hm)
      rw [List.find?_cons_of_neg _ (by simp [hne])]
      exact ih hnd.2 r hm

theorem updMap_ids (l : List Reg) (id : Nat) (ev' : EventState) :
    (updMap l id ev').map (fun r => r.id) = l.map (fun r => r.id) := by
  induction l with
  | nil => rfl
  | cons r rs ih =>
    by_cases hp : r.id = id <;> simp [updMap, hp] at ih ⊢ <;> exact ih

theorem updMap_length (l : List Reg) (id : Nat) (ev' : EventState) :
    (updMap l id ev').length = l.length := by
  simp [updMap]

theorem updMap_find_other (l : List Reg) (id j : Nat) (ev' : EventState)
    (hne : j ≠ id) :
    (updMap l id ev').find? (fun r => decide (r.id = j)) =
      l.find? (fun r => decide (r.id = j)) := by
  induction l with
  | nil => rfl
  | cons r rs ih =>
    rw [updMap, List.map_cons]
    by_cases hp : r.id = id
    · rw [if_pos hp]
      rw [List.find?_cons_of_neg _ (by simp [hp]; omega),
        List.find?_cons_of_neg _ (by simp [hp]; omega)]
      exact ih
    · rw [if_neg hp]
      by_cases hq : r.id = j
      · rw [List.find?_cons_of_pos _ (by simp [hq]),
          List.find?_cons_of_pos _ (by simp [hq])]
      · rw [List.find?_cons_of_neg _ (by simp [hq]),
          List.find?_cons_of_neg _ (by simp [hq])]
        exact ih

theorem updMap_mem_id (l : List Reg) (id : Nat) (ev' : EventState)
    (h : ∃ x ∈ l, x.id = id) :
    ∃ x ∈ updMap l id ev', x.id = id := by
  obtain ⟨x, hx, hid⟩ := h
  unfold updMap
  refine ⟨{ x with ev := ev' }, ?_, hid⟩
  have hmem := List.mem_map_of_mem
    (fun r => if r.id = id then { r with ev := ev' } else r) hx
  dsimp only at hmem
  rw [if_pos hid] at hmem
  exact hmem

/-!
## Step lemmas for the listener-count invariant
-/

theorem checkLeakage_cases (s : EmitterState) :
    (s.checkLeakageBeforeAdd = (s, true) ∧ s.disposed = false) ∨
    ((s.checkLeakageBeforeAdd).2 = false ∧
     (s.checkLeakageBeforeAdd).1.listeners = s.listeners ∧
     (s.checkLeakageBeforeAdd).1.size = s.size ∧
     (s.checkLeakageBeforeAdd).1.disposed = s.disposed ∧
     (s.checkLeakageBeforeAdd).1.nextId = s.nextId) := by
  unfold EmitterState.checkLeakageBeforeAdd
  by_cases hd : s.disposed = true
  · right
    simp [hd]
  · simp only [Bool.not_eq_true] at hd
    match hm : s.monitor with
    | none => left; simp [hd, hm]
    | some m =>
      by_cases hsz : m.threshold ^ 2 < s.size
      · right
        simp [hd, hm, hsz]
      · left
        simp [hd, hm, hsz]

theorem addListener_shape (s : EmitterState) (key : Nat) (ev : EventState)
    (cbId trace : Nat) (cbRaises : Option ErrCode) :
    (((s.addListener key ev cbId trace cbRaises).1.listeners = s.listeners ∧
      (s.addListener key ev cbId trace cbRaises).1.size = s.size) ∧
      (s.addListener key ev cbId trace cbRaises).1.disposed = s.disposed) ∨
    (s.disposed = false ∧
     (s.addListener key ev cbId trace cbRaises).1.listeners =
        s.listeners ++ [Reg.mk key s.nextId cbId ev cbRaises] ∧
     (s.addListener key ev cbId trace cbRaises).1.size = s.size + 1 ∧
     (s.addListener key ev cbId trace cbRaises).1.disposed = s.disposed) := by
  rcases checkLeakage_cases s with ⟨hc, hd⟩ | ⟨hc2, hl, hsz, hdp, hni⟩
  · right
    refine ⟨hd, ?_⟩
    unfold EmitterState.addListener
    rw [hc]
    simp only [hd]
    repeat' split
    all_goals simp_all
  · left
    unfold EmitterState.addListener
    rcases hpair : s.checkLeakageBeforeAdd with ⟨s1, pass⟩
    rw [hpair] at hc2 hl hsz hdp
    simp only at hc2 hl hsz hdp
    subst hc2
    simp [hl, hsz, hdp]

theorem removeUnique_shape (s : EmitterState) (id : Nat) (evKey : Option Nat) :
    (((s.removeUnique id evKey).1.listeners = s.listeners ∧
      (s.removeUnique id evKey).1.size = s.size) ∧
      (s.removeUnique id evKey).1.disposed = s.disposed) ∨
    (∃ p l', eraseFirstBy p s.listeners = some l' ∧
       (s.removeUnique id evKey).1.listeners = l' ∧
       (s.removeUnique id evKey).1.size = s.size - 1 ∧
       (s.removeUnique id evKey).1.disposed = s.disposed) := by
  unfold EmitterState.removeUnique
  by_cases hd : s.disposed = true
  · left; simp [hd]
  · simp only [Bool.not_eq_true] at hd
    simp only [hd, Bool.false_eq_true, if_false]
    by_cases hz : s.size = 0
    · left; simp [hz]
    · simp only [hz, if_false]
      rcases herase : eraseFirstBy
          (match evKey with
           | some k => fun r => r.key = k && r.id = id
           | none => fun r => r.id = id) s.listeners with _ | l'
      · left; simp [herase]
      · right
        refine ⟨_, l', herase, ?_⟩
        simp [herase]
        split <;> simp

theorem inv_removeUnique (s : EmitterState) (id : Nat) (evKey : Option Nat)
    (h : EmitterInv s) : EmitterInv (s.removeUnique id evKey).1 := by
  obtain ⟨h1, h2⟩ := h
  rcases removeUnique_shape s id evKey with ⟨⟨hl, hsz⟩, hdp⟩ | ⟨p, l', he, hl, hsz, hdp⟩
  · exact ⟨by rw [hsz, hl, h1], fun hdisp => by rw [hl]; exact h2 (hdp ▸ hdisp)⟩
  · constructor
    · rw [hsz, hl, h1]
      have := eraseFirstBy_length he
      omega
    · intro hdisp
      rw [hdp] at hdisp
      rw [h2 hdisp] at he
      simp [eraseFirstBy] at he

theorem inv_addListener (s : EmitterState) (key : Nat) (ev : EventState)
    (cbId trace : Nat) (cbRaises : Option ErrCode)
    (h : EmitterInv s) : EmitterInv (s.addListener key ev cbId trace cbRaises).1 := by
  obtain ⟨h1, h2⟩ := h
  rcases addListener_shape s key ev cbId trace cbRaises with
      ⟨⟨hl, hsz⟩, hdp⟩ | ⟨hd, hl, hsz, hdp⟩
  · exact ⟨by rw [hsz, hl, h1], fun hdisp => by rw [hl]; exact h2 (hdp ▸ hdisp)⟩
  · constructor
    · rw [hsz, hl, h1]
      simp
    · intro hdisp
      rw [hdp, hd] at hdisp
      exact absurd hdisp (by simp)

theorem inv_clearE (s : EmitterState) (key : Option Nat)
    (h : EmitterInv s) : EmitterInv (s.clearE key) := by
  obtain ⟨h1, h2⟩ := h
  unfold EmitterState.clearE
  by_cases hd : s.disposed = true
  · simpa [hd] using ⟨h1, h2⟩
  · simp only [Bool.not_eq_true] at hd
    simp only [hd, Bool.false_eq_true, if_false]
    match key with
    | none => exact ⟨by simp, by simp⟩
    | some k =>
      have hlen := List.length_eq_length_filter_add (l := s.listeners)
        (fun r => decide (r.key = k))
      constructor
      · simp only
        split <;>
          · simp only
            rw [h1]
            omega
      · simp only
        split <;>
          · simp [hd]

theorem inv_disposeEmitterE (s : EmitterState) (h : EmitterInv s) :
    EmitterInv s.disposeEmitterE := by
  obtain ⟨h1, h2⟩ := h
  unfold EmitterState.disposeEmitterE
  by_cases hd : s.disposed = true
  · simpa [hd] using ⟨h1, h2⟩
  · simp only [Bool.not_eq_true] at hd
    simp only [hd, Bool.false_eq_true, if_false]
    split <;> exact ⟨by simp, by simp⟩

theorem inv_disposeHandle (s : EmitterState) (h : Handle)
    (hinv : EmitterInv s) : EmitterInv (s.disposeHandle h).1 := by
  match h with
  | .noop => exact hinv
  | .reg k id cleanup =>
    unfold EmitterState.disposeHandle
    simp only
    apply inv_removeUnique
    rcases hinv with ⟨h1, h2⟩
    rcases cleanup with _ | tr <;> rcases hm : s.monitor with _ | m <;>
      exact ⟨h1, h2⟩

theorem inv_offE (s : EmitterState) (key cbId : Nat)
    (h : EmitterInv s) : EmitterInv (s.offE key cbId).1 := by
  unfold EmitterState.offE
  split
  · exact h
  · exact inv_removeUnique _ _ _ h

theorem inv_applyOp (s : EmitterState) (op : EmitterOp)
    (h : EmitterInv s) : EmitterInv (s.applyOp op) := by
  cases op with
  | addOn key cbId trace => exact inv_addListener _ _ _ _ _ _ h
  | addOnce key cbId trace => exact inv_addListener _ _ _ _ _ _ h
  | hdispose key id cleanup => exact inv_disposeHandle _ _ h
  | off key cbId => exact inv_offE _ _ _ h
  | clearKey key => exact inv_clearE _ _ h
  | clearAll => exact inv_clearE _ _ h
  | disposeEmitter => exact inv_disposeEmitterE _ h

theorem inv_applyOps (ops : List EmitterOp) :
    ∀ s : EmitterState, EmitterInv s → EmitterInv (s.applyOps ops) := by
  induction ops with
  | nil => intro s h; exact h
  | cons op rest ih =>
    intro s h
    exact ih _ (inv_applyOp s op h)

theorem inv_mkEmitter (cfg : Option Int) : EmitterInv (EmitterState.mkEmitter cfg) := by
  constructor <;> simp [EmitterState.mkEmitter]

/-!
## Lemmas about the delivery path of fire
-/

theorem removeUnique_handlerErrors (s : EmitterState) (id : Nat) (evKey : Option Nat) :
    (s.removeUnique id evKey).1.handlerErrors = s.handlerErrors := by
  unfold EmitterState.removeUnique
  dsimp only
  repeat' split
  all_goals simp

theorem removeUnique_disposed (s : EmitterState) (id : Nat) (evKey : Option Nat) :
    (s.removeUnique id evKey).1.disposed = s.disposed := by
  rcases removeUnique_shape s id evKey with ⟨⟨_, _⟩, hdp⟩ | ⟨p, l', _, _, _, hdp⟩ <;>
    exact hdp

theorem removeUnique_none_ok (s : EmitterState) (id : Nat)
    (h : ∃ x ∈ s.listeners, x.id = id) :
    (s.removeUnique id none).2 = none := by
  obtain ⟨x, hx, hid⟩ := h
  have hsome := eraseFirstBy_isSome (p := fun r => decide (r.id = id))
    ⟨x, hx, by simp [hid]⟩
  unfold EmitterState.removeUnique
  dsimp only
  repeat' split
  all_goals simp_all

theorem removeUnique_none_listeners_cases (s : EmitterState) (id : Nat) :
    (s.removeUnique id none).1.listeners = s.listeners ∨
    ∃ l', eraseFirstBy (fun r => decide (r.id = id)) s.listeners = some l' ∧
      (s.removeUnique id none).1.listeners = l' := by
  unfold EmitterState.removeUnique
  by_cases hd : s.disposed = true
  · left; simp [hd]
  · simp only [Bool.not_eq_true] at hd
    simp only [hd, Bool.false_eq_true, if_false]
    by_cases hz : s.size = 0
    · left; simp [hz]
    · simp only [hz, if_false]
      rcases he : eraseFirstBy (fun r => decide (r.id = id)) s.listeners with _ | l'
      · left; simp [he]
      · right
        refine ⟨l', rfl, ?_⟩
        dsimp only
        split <;> simp

theorem removeUnique_none_erase (s : EmitterState) (id : Nat)
    (hd : s.disposed = false) (hz : ¬ s.size = 0) {l' : List Reg}
    (he : eraseFirstBy (fun r => decide (r.id = id)) s.listeners = some l') :
    (s.removeUnique id none).1.listeners = l' := by
  unfold EmitterState.removeUnique
  simp only [hd, Bool.false_eq_true, if_false, hz, ite_false, he]
  split <;> simp

theorem deliverOne_total (s : EmitterState) (id : Nat) :
    (s.deliverOne id).2 = none := by
  unfold EmitterState.deliverOne
  rcases hf : s.listeners.find? (fun r => decide (r.id = id)) with _ | r
  · rw [hf]
  · rw [hf]
    have hmem : ∃ x ∈ s.listeners, x.id = id :=
      ⟨r, List.mem_of_find?_eq_some hf, by simpa using List.find?_some hf⟩
    by_cases hd : s.disposed = true
    · simp [hd]
    · simp only [Bool.not_eq_true] at hd
      simp only [hd, Bool.false_eq_true, if_false]
      rcases hcs : r.ev.callStep with e | ⟨ev', tok⟩
      · exact removeUnique_none_ok s id hmem
      · rcases hcb : r.cbRaises with _ | e
        · rfl
        · by_cases hsil : EmitterState.silentRemoval e = true
          · simp only [hsil, if_true]
            exact removeUnique_none_ok (s.updateEv id ev') id
              (updMap_mem_id s.listeners id ev' hmem)
          · simp only [Bool.not_eq_true] at hsil
            simp only [hsil, Bool.false_eq_true, if_false]

theorem deliverOne_disposed (s : EmitterState) (id : Nat) :
    (s.deliverOne id).1.disposed = s.disposed := by
  unfold EmitterState.deliverOne
  rcases hf : s.listeners.find? (fun r => decide (r.id = id)) with _ | r
  · rw [hf]
  · rw [hf]
    by_cases hd : s.disposed = true
    · simp [hd]
    · simp only [Bool.not_eq_true] at hd
      simp only [hd, Bool.false_eq_true, if_false]
      rcases hcs : r.ev.callStep with e | ⟨ev', tok⟩
      · have h2 := removeUnique_disposed s id none
        rw [hd] at h2
        exact h2
      · rcases hcb : r.cbRaises with _ | e
        · exact hd
        · by_cases hsil : EmitterState.silentRemoval e = true
          · dsimp only
            rw [if_pos hsil]
            have h2 := removeUnique_disposed (s.updateEv id ev') id none
            rw [show (s.updateEv id ev').disposed = s.disposed from rfl, hd] at h2
            exact h2
          · dsimp only
            rw [if_neg hsil]
            exact hd

theorem deliverOne_handlerErrors (s : EmitterState) (id : Nat)
    (hd : s.disposed = false) :
    (s.deliverOne id).1.handlerErrors =
      s.handlerErrors ++
        (match s.listeners.find? (fun r => decide (r.id = id)) with
         | some r => (Reg.forwardErr r).toList
         | none => []) := by
  unfold EmitterState.deliverOne
  rcases hf : s.listeners.find? (fun r => decide (r.id = id)) with _ | r
  · rw [hf]; simp
  · rw [hf]
    simp only [hd, Bool.false_eq_true, if_false]
    unfold Reg.forwardErr
    rcases hcs : r.ev.callStep with e | ⟨ev', tok⟩
    · simp [removeUnique_handlerErrors]
    · rcases hcb : r.cbRaises with _ | e
      · simp [EmitterState.updateEv]
      · by_cases hsil : EmitterState.silentRemoval e = true
        · simp only [hsil, if_true]
          rw [removeUnique_handlerErrors]
          simp [EmitterState.updateEv, hsil]
        · simp only [Bool.not_eq_true] at hsil
          simp [EmitterState.updateEv, hsil]

theorem deliverOne_find_other (s : EmitterState) (id j : Nat) (hne : j ≠ id) :
    (s.deliverOne id).1.listeners.find? (fun r => decide (r.id = j)) =
      s.listeners.find? (fun r => decide (r.id = j)) := by
  have herase : ∀ (l l' : List Reg),
      eraseFirstBy (fun r => decide (r.id = id)) l = some l' →
      l'.find? (fun r => decide (r.id = j)) = l.find? (fun r => decide (r.id = j)) := by
    intro l l' he
    refine eraseFirstBy_find_eq (fun r hq => ?_) he
    simp only [decide_eq_true_eq] at hq
    simp [hq]
    omega
  unfold EmitterState.deliverOne
  rcases hf : s.listeners.find? (fun r => decide (r.id = id)) with _ | r
  · rw [hf]
  · rw [hf]
    by_cases hd : s.disposed = true
    · simp [hd]
    · simp only [Bool.not_eq_true] at hd
      simp only [hd, Bool.false_eq_true, if_false]
      rcases hcs : r.ev.callStep with e | ⟨ev', tok⟩
      · rcases removeUnique_none_listeners_cases s id with hsame | ⟨l', he, hl⟩
        · rw [hsame]
        · rw [hl]; exact herase _ _ he
      · rcases hcb : r.cbRaises with _ | e
        · exact updMap_find_other s.listeners id j ev' hne
        · by_cases hsil : EmitterState.silentRemoval e = true
          · simp only [hsil, if_true]
            rcases removeUnique_none_listeners_cases (s.updateEv id ev') id with
                hsame | ⟨l', he, hl⟩
            · rw [hsame]
              exact updMap_find_other s.listeners id j ev' hne
            · rw [hl, herase _ _ he]
              exact updMap_find_other s.listeners id j ev' hne
          · simp only [Bool.not_eq_true] at hsil
            simp only [hsil, Bool.false_eq_true, if_false]
            exact updMap_find_other s.listeners id j ev' hne

theorem deliverOne_nodup (s : EmitterState) (id : Nat)
    (h : (s.listeners.map (fun r => r.id)).Nodup) :
    ((s.deliverOne id).1.listeners.map (fun r => r.id)).Nodup := by
  have herase : ∀ (l l' : List Reg), (l.map (fun r => r.id)).Nodup →
      eraseFirstBy (fun r => decide (r.id = id)) l = some l' →
      (l'.map (fun r => r.id)).Nodup := fun l l' hn he =>
    List.Nodup.sublist ((eraseFirstBy_sublist he).map (fun r => r.id)) hn
  unfold EmitterState.deliverOne
  rcases hf : s.listeners.find? (fun r => decide (r.id = id)) with _ | r
  · rw [hf]; exact h
  · rw [hf]
    by_cases hd : s.disposed = true
    · simp only [hd, if_true]; exact h
    · simp only [Bool.not_eq_true] at hd
      simp only [hd, Bool.false_eq_true, if_false]
      rcases hcs : r.ev.callStep with e | ⟨ev', tok⟩
      · rcases removeUnique_none_listeners_cases s id with hsame | ⟨l', he, hl⟩
        · rw [hsame]; exact h
        · rw [hl]; exact herase _ _ h he
      · have hupd : ((updMap s.listeners id ev').map (fun r => r.id)).Nodup := by
          rw [updMap_ids]; exact h
        rcases hcb : r.cbRaises with _ | e
        · exact hupd
        · by_cases hsil : EmitterState.silentRemoval e = true
          · simp only [hsil, if_true]
            rcases removeUnique_none_listeners_cases (s.updateEv id ev') id with
                hsame | ⟨l', he, hl⟩
            · rw [hsame]; exact hupd
            · rw [hl]; exact herase _ _ hupd he
          · simp only [Bool.not_eq_true] at hsil
            simp only [hsil, Bool.false_eq_true, if_false]
            exact hupd

theorem inv_updateEv (s : EmitterState) (id : Nat) (ev' : EventState)
    (h : EmitterInv s) : EmitterInv (s.updateEv id ev') := by
  obtain ⟨h1, h2⟩ := h
  constructor
  · show s.size = ((updMap s.listeners id ev').length : Int)
    rw [updMap_length]
    exact h1
  · intro hdisp
    show updMap s.listeners id ev' = []
    rw [h2 hdisp]
    rfl

theorem deliverOne_inv (s : EmitterState) (id : Nat)
    (h : EmitterInv s) : EmitterInv (s.deliverOne id).1 := by
  unfold EmitterState.deliverOne
  rcases hf : s.listeners.find? (fun r => decide (r.id = id)) with _ | r
  · rw [hf]; exact h
  · rw [hf]
    by_cases hd : s.disposed = true
    · simp only [hd, if_true]; exact h
    · simp only [Bool.not_eq_true] at hd
      simp only [hd, Bool.false_eq_true, if_false]
      rcases hcs : r.ev.callStep with e | ⟨ev', tok⟩
      · exact inv_removeUnique s id none h
      · rcases hcb : r.cbRaises with _ | e
        · exact inv_updateEv s id ev' h
        · by_cases hsil : EmitterState.silentRemoval e = true
          · dsimp only
            rw [if_pos hsil]
            exact inv_removeUnique _ id none (inv_updateEv s id ev' h)
          · dsimp only
            rw [if_neg hsil]
            obtain ⟨h1, h2⟩ := inv_updateEv s id ev' h
            exact ⟨h1, h2⟩

theorem deliverOne_silent_find_none (s : EmitterState) (r : Reg)
    (hd : s.disposed = false) (hinv : s.size = (s.listeners.length : Int))
    (hnd : (s.listeners.map (fun x => x.id)).Nodup)
    (hf : s.listeners.find? (fun x => decide (x.id = r.id)) = some r)
    (hsil : r.silentFail = true) :
    (s.deliverOne r.id).1.listeners.find? (fun x => decide (x.id = r.id)) = none := by
  have hmem := List.mem_of_find?_eq_some hf
  have hz : ¬ s.size = 0 := by
    have hpos : 0 < s.listeners.length := List.length_pos.mpr (List.ne_nil_of_mem hmem)
    omega
  unfold EmitterState.deliverOne
  rw [hf]
  simp only [hd, Bool.false_eq_true, if_false]
  unfold Reg.silentFail at hsil
  rcases hcs : r.ev.callStep with e | ⟨ev', tok⟩
  · have hsome := eraseFirstBy_isSome (p := fun x => decide (x.id = r.id))
      ⟨r, hmem, by simp⟩
    rcases he : eraseFirstBy (fun x => decide (x.id = r.id)) s.listeners with _ | l'
    · rw [he] at hsome; simp at hsome
    · rw [removeUnique_none_erase s r.id hd hz he]
      exact eraseFirstBy_find_none hnd he
  · rw [hcs] at hsil
    dsimp only at hsil
    rcases hcb : r.cbRaises with _ | e
    · rw [hcb] at hsil; simp at hsil
    · rw [hcb] at hsil
      dsimp only at hsil
      dsimp only
      rw [if_pos hsil]
      have hmem2 : ∃ x ∈ updMap s.listeners r.id ev', x.id = r.id :=
        updMap_mem_id s.listeners r.id ev' ⟨r, hmem, rfl⟩
      have hnd2 : ((updMap s.listeners r.id ev').map (fun x => x.id)).Nodup := by
        rw [updMap_ids]; exact hnd
      obtain ⟨x, hx, hid⟩ := hmem2
      have hsome := eraseFirstBy_isSome (p := fun y => decide (y.id = r.id))
        ⟨x, hx, by simp [hid]⟩
      rcases he : eraseFirstBy (fun y => decide (y.id = r.id))
          (updMap s.listeners r.id ev') with _ | l'
      · rw [he] at hsome; simp at hsome
      · rw [removeUnique_none_erase (s.updateEv r.id ev') r.id hd hz he]
        exact eraseFirstBy_find_none hnd2 he

theorem deliverList_step (s : EmitterState) (id : Nat) (ids : List Nat) :
    s.deliverList (id :: ids) = ((s.deliverOne id).1).deliverList ids := by
  have he := deliverOne_total s id
  rcases hp : s.deliverOne id with ⟨s', e⟩
  rw [hp] at he
  simp only at he
  subst he
  conv_lhs => rw [EmitterState.deliverList]
  rw [hp]

theorem deliverList_ok (ids : List Nat) : ∀ s : EmitterState,
    (s.deliverList ids).2 = none := by
  induction ids with
  | nil => intro s; rfl
  | cons id rest ih =>
    intro s
    rw [deliverList_step]
    exact ih _

theorem deliverList_append (a b : List Nat) : ∀ s : EmitterState,
    s.deliverList (a ++ b) = ((s.deliverList a).1).deliverList b := by
  induction a with
  | nil => intro s; rfl
  | cons id rest ih =>
    intro s
    rw [List.cons_append, deliverList_step, ih, deliverList_step]

theorem deliverList_disposed (ids : List Nat) : ∀ s : EmitterState,
    (s.deliverList ids).1.disposed = s.disposed := by
  induction ids with
  | nil => intro s; rfl
  | cons id rest ih =>
    intro s
    rw [deliverList_step, ih, deliverOne_disposed]

theorem deliverList_nodup (ids : List Nat) : ∀ s : EmitterState,
    (s.listeners.map (fun r => r.id)).Nodup →
    ((s.deliverList ids).1.listeners.map (fun r => r.id)).Nodup := by
  induction ids with
  | nil => intro s h; exact h
  | cons id rest ih =>
    intro s h
    rw [deliverList_step]
    exact ih _ (deliverOne_nodup s id h)

theorem deliverList_inv (ids : List Nat) : ∀ s : EmitterState,
    EmitterInv s → EmitterInv (s.deliverList ids).1 := by
  induction ids with
  | nil => intro s h; exact h
  | cons id rest ih =>
    intro s h
    rw [deliverList_step]
    exact ih _ (deliverOne_inv s id h)

theorem deliverList_find_other (ids : List Nat) : ∀ (s : EmitterState) (j : Nat),
    j ∉ ids →
    (s.deliverList ids).1.listeners.find? (fun r => decide (r.id = j)) =
      s.listeners.find? (fun r => decide (r.id = j)) := by
  induction ids with
  | nil => intro s j _; rfl
  | cons id rest ih =>
    intro s j hj
    rw [deliverList_step, ih _ j (fun h => hj (List.mem_cons_of_mem _ h)),
      deliverOne_find_other s id j (fun h => hj (h ▸ List.mem_cons_self id rest))]

theorem expectedForwards_congr (ids : List Nat) : ∀ (s t : EmitterState),
    (∀ j ∈ ids, t.listeners.find? (fun r => decide (r.id = j)) =
      s.listeners.find? (fun r => decide (r.id = j))) →
    expectedForwards t ids = expectedForwards s ids := by
  induction ids with
  | nil => intro s t _; rfl
  | cons j rest ih =>
    intro s t h
    unfold expectedForwards
    rw [h j (List.mem_cons_self j rest),
      ih s t (fun j' hj' => h j' (List.mem_cons_of_mem _ hj'))]

theorem deliverList_handlerErrors (ids : List Nat) : ∀ s : EmitterState,
    s.disposed = false → ids.Nodup →
    (s.deliverList ids).1.handlerErrors =
      s.handlerErrors ++ expectedForwards s ids := by
  induction ids with
  | nil => intro s _ _; simp [EmitterState.deliverList, expectedForwards]
  | cons id rest ih =>
    intro s hd hnd
    obtain ⟨hn1, hn2⟩ := List.nodup_cons.mp hnd
    rw [deliverList_step]
    have hd' : (s.deliverOne id).1.disposed = false := by
      rw [deliverOne_disposed]; exact hd
    rw [ih _ hd' hn2,
      expectedForwards_congr rest s (s.deliverOne id).1
        (fun j hj => deliverOne_find_other s id j (fun he => hn1 (he ▸ hj))),
      deliverOne_handlerErrors s id hd]
    conv_rhs => rw [expectedForwards]
    simp [List.append_assoc]

theorem expectedForwards_of_regs : ∀ (regs : List Reg) (s : EmitterState),
    (∀ r ∈ regs, s.listeners.find? (fun x => decide (x.id = r.id)) = some r) →
    expectedForwards s (regs.map (fun r => r.id)) = regs.filterMap Reg.forwardErr := by
  intro regs
  induction regs with
  | nil => intro s _; rfl
  | cons r rest ih =>
    intro s h
    rw [List.map_cons]
    unfold expectedForwards
    rw [h r (List.mem_cons_self r rest),
      ih s (fun r' h' => h r' (List.mem_cons_of_mem _ h'))]
    rcases hfe : Reg.forwardErr r with _ | e <;>
      simp [List.filterMap_cons, hfe]

/-!
## Claims
-/

/-- C5: for a non-once, cancelable, live Bound Listener, `cancel()` makes
`isCancellationRequested()` report true, and the next `$call` still
succeeds: the wrapper replaces its Cancellation Source with a fresh one
before delivering, so the callback receives a live token that is not
cancellation-requested. -/
theorem c5_cancel_consumed_per_call (ev : EventState)
    (hd : ev.disposed = false) (ho : ev.once = false)
    (hc : ev.cancelable = true) (hs : ev.sourceRequested.isSome = true) :
    (ev.cancelE).isCancellationRequested = true ∧
    (ev.cancelE).callStep =
      .ok ({ ev with sourceRequested := some false,
                     callCount := ev.callCount + 1 }, some false) := by
  obtain ⟨b, hb⟩ := Option.isSome_iff_exists.mp hs
  constructor
  · simp [EventState.cancelE, EventState.isCancellationRequested, hd, hb]
  · simp [EventState.cancelE, EventState.callStep, hd, ho, hc, hb]

/-- Witness for C5 at the default-constructed Event. -/
theorem c5_cancel_consumed_per_call_witness :
    ((EventState.mkFromOpts none false).cancelE).isCancellationRequested = true ∧
    ((EventState.mkFromOpts none false).cancelE).callStep =
      .ok ({ EventState.mkFromOpts none false with
               sourceRequested := some false, callCount := 1 }, some false) :=
  c5_cancel_consumed_per_call (EventState.mkFromOpts none false)
    (by decide) (by decide) (by decide) (by decide)

/-- C7 counterexample: the Bound Listener the Emitter constructs when
`on`/`once` is given a raw callback and no explicit `cancelable` option
does NOT own a Cancellation Source (the wrap passes `cancelable ?? false`),
refuting the claim that cancelable defaults to true there; its callback is
delivered `CancellationToken.None` (the `none` token), not a live token. -/
theorem c7_counterexample :
    ¬ ((EventState.emitterWrapRaw none false).sourceRequested.isSome = true) ∧
    (EventState.emitterWrapRaw none false).callStep =
      .ok ({ EventState.emitterWrapRaw none false with callCount := 1 }, none) := by
  constructor
  · decide
  · rfl

/-- C7 amended: `cancelable` defaults to true for a directly-constructed
Bound Listener (an owned, unrequested Cancellation Source is allocated),
but the Emitter's wrapping of a raw callback passes `cancelable: options
?? false`, so such listeners own no source and their callbacks receive the
`None` token; passing `cancelable: true` through the Emitter restores the
owned source. -/
theorem c7_cancelable_default_amended (once : Bool) :
    (EventState.mkFromOpts none once).cancelable = true ∧
    (EventState.mkFromOpts none once).sourceRequested = some false ∧
    (EventState.emitterWrapRaw none once).cancelable = false ∧
    (EventState.emitterWrapRaw none once).sourceRequested = none ∧
    (EventState.emitterWrapRaw (some true) once).sourceRequested = some false := by
  cases once <;> decide

/-- C3 counterexample: adding a disposable to an already-disposed
`DisposableStore` does NOT release it during that `add` call (the store
only warns that the object will be leaked), refuting the claim that the
added entity is immediately released. -/
theorem c3_counterexample :
    ¬ (5 ∈ (DStore.add ⟨true, []⟩ 5).2.2) ∧ (DStore.add ⟨true, []⟩ 5).2.1 = true := by
  constructor
  · decide
  · decide

/-- C3 amended: once a `DisposableStore` is disposed, `add(d)` does not
register `d` and emits a diagnostic, but does not release `d` — the object
is leaked, exactly as the emitted warning says.  The `Disposable` base
class's `_register` is the operation that warns and immediately releases a
child registered after disposal. -/
theorem c3_add_after_dispose_amended (s : DStore) (o : Nat) (d : DBase) (t : Nat)
    (hs : s.isDisposed = true) (hd : d.isDisposed = true) :
    DStore.add s o = (s, true, []) ∧ DBase.register d t = (d, true, [t]) := by
  constructor
  · simp [DStore.add, hs]
  · simp [DBase.register, hd]

/-- Witness for the amended C3 at concrete disposed containers. -/
theorem c3_add_after_dispose_amended_witness :
    DStore.add ⟨true, []⟩ 5 = (⟨true, []⟩, true, []) ∧
    DBase.register ⟨true, []⟩ 7 = (⟨true, []⟩, true, [7]) :=
  c3_add_after_dispose_amended ⟨true, []⟩ 5 ⟨true, []⟩ 7 rfl rfl

/-- C2 counterexample: on a live emitter still holding another listener, a
second `dispose()` of the same registration handle is not a no-op — it
re-runs the removal closure, whose failed `SetMap.delete` makes
`_removeUniqueListener` throw (the unknown-listener Exception), refuting
the claim that every produced disposable tolerates repeated disposal. -/
theorem c2_counterexample :
    ((twoListenerEmitter.1.disposeHandle twoListenerEmitter.2.1).1.disposeHandle
      twoListenerEmitter.2.1).2.isSome = true ∧
    (twoListenerEmitter.1.disposeHandle twoListenerEmitter.2.1).2 = none := by
  constructor
  · decide
  · decide

/-- C2 amended: `dispose` is idempotent for the disposables implemented by
the `Disposable` machinery — `Event`, `DisposableStore` and the
`Disposable` base class (a second call changes nothing and releases no
child again) — but the registration handle returned by `on`/`once` is a
bare closure with no guard: its second dispose re-runs removal, which
throws when the emitter is live with remaining listeners and is a no-op
only when the emitter is already disposed (and no leak-monitor cleanup was
captured). -/
theorem c2_dispose_idempotence_amended (ev : EventState) (st : DStore) (d : DBase)
    (s : EmitterState) (k id : Nat) (hs : s.disposed = true) :
    ev.disposeE.disposeE = ev.disposeE ∧
    (st.disposeS).1.disposeS = ((st.disposeS).1, []) ∧
    (d.disposeB).1.disposeB = ((d.disposeB).1, []) ∧
    s.disposeHandle (.reg k id none) = (s, none) := by
  refine ⟨?_, ?_, ?_, ?_⟩
  · rcases ev with ⟨d, o, c, n, sr⟩
    cases d <;> cases sr <;> simp [EventState.disposeE, EventState.cancelE]
  · rcases st with ⟨sd, li⟩
    cases sd <;> simp [DStore.disposeS]
  · rcases d with ⟨dd, li⟩
    cases dd <;> simp [DBase.disposeB]
  · simp [EmitterState.disposeHandle, EmitterState.removeUnique, hs]

/-- Witness for the amended C2 at concrete states. -/
theorem c2_dispose_idempotence_amended_witness :
    (EventState.mkFromOpts none false).disposeE.disposeE =
      (EventState.mkFromOpts none false).disposeE ∧
    ((⟨false, [3]⟩ : DStore).disposeS).1.disposeS =
      (((⟨false, [3]⟩ : DStore).disposeS).1, []) ∧
    ((⟨false, [4]⟩ : DBase).disposeB).1.disposeB =
      (((⟨false, [4]⟩ : DBase).disposeB).1, []) ∧
    ((EmitterState.mkEmitter none).disposeEmitterE).disposeHandle (.reg 0 0 none) =
      ((EmitterState.mkEmitter none).disposeEmitterE, none) :=
  c2_dispose_idempotence_amended (EventState.mkFromOpts none false)
    ⟨false, [3]⟩ ⟨false, [4]⟩ ((EmitterState.mkEmitter none).disposeEmitterE)
    0 0 (by decide)

/-- C6: the Cancelable Operation Bridge.  If `cancel()` is requested before
the underlying result settles, the handle's outcome is the structured
`ERR_TOKEN_CANCELLED` rejection — also when the underlying result later
settles successfully, in which case a Disposable value is released exactly
once and the rejection (not the value) is surfaced; `cancel()` after a
successful settlement is a no-op on the outcome and runs no throwing code
(the model transition is total and leaves the settled value in place). -/
theorem c6_cancelable_bridge (v : CPValue) :
    (CPState.init.run [.cancel]).settled = some (.err .ERR_TOKEN_CANCELLED) ∧
    (CPState.init.run [.cancel, .settleOk v]).settled =
      some (.err .ERR_TOKEN_CANCELLED) ∧
    (CPState.init.run [.cancel, .settleOk v]).valueDisposeCount =
      (if v.disposable then 1 else 0) ∧
    (CPState.init.run [.settleOk v, .cancel]).settled = some (.value v) ∧
    (CPState.init.run [.settleOk v, .cancel]).valueDisposeCount = 0 := by
  obtain ⟨b⟩ := v
  cases b <;> decide

/-- C10: registering on an already-disposed Emitter is a guarded no-op:
`on`/`once` return the shared no-op handle without touching any state (no
listener stored, no hook fired, nothing thrown — the disposed check inside
`_checkLeakageBeforeAdd` short-circuits before any of that), the listener
count reads 0, and disposing the returned no-op handle does nothing. -/
theorem c10_add_on_disposed (s : EmitterState) (key cbId trace : Nat)
    (cancelableOpt : Option Bool) (cbRaises : Option ErrCode)
    (hs : s.disposed = true) :
    s.onRaw key cbId cancelableOpt trace cbRaises = (s, .noop) ∧
    s.onceRaw key cbId cancelableOpt trace cbRaises = (s, .noop) ∧
    s.listenersCountAll = 0 ∧
    s.disposeHandle .noop = (s, none) := by
  refine ⟨?_, ?_, ?_, ?_⟩
  · simp [EmitterState.onRaw, EmitterState.addListener,
      EmitterState.checkLeakageBeforeAdd, hs]
  · simp [EmitterState.onceRaw, EmitterState.addListener,
      EmitterState.checkLeakageBeforeAdd, hs]
  · simp [EmitterState.listenersCountAll, hs]
  · simp [EmitterState.disposeHandle]

/-- Witness for C10 at a freshly disposed emitter. -/
theorem c10_add_on_disposed_witness :
    ((EmitterState.mkEmitter none).disposeEmitterE).onRaw 0 1 none 0 none =
      ((EmitterState.mkEmitter none).disposeEmitterE, .noop) ∧
    ((EmitterState.mkEmitter none).disposeEmitterE).onceRaw 0 1 none 0 none =
      ((EmitterState.mkEmitter none).disposeEmitterE, .noop) ∧
    ((EmitterState.mkEmitter none).disposeEmitterE).listenersCountAll = 0 ∧
    ((EmitterState.mkEmitter none).disposeEmitterE).disposeHandle .noop =
      ((EmitterState.mkEmitter none).disposeEmitterE, none) :=
  c10_add_on_disposed ((EmitterState.mkEmitter none).disposeEmitterE)
    0 1 0 none none (by decide)

/-- C8: once the overall listener count strictly exceeds the leakage
monitor's squared threshold, a registration is refused outright: the only
state change is the `ERR_LISTENER_REFUSAL` error handed to the configured
error handler, nothing is registered (the listener count is unchanged) and
the returned handle is the shared no-op. -/
theorem c8_refusal_gate (s : EmitterState) (m : LeakMonitor) (key : Nat)
    (ev : EventState) (cbId trace : Nat) (cbRaises : Option ErrCode)
    (hd : s.disposed = false) (hm : s.monitor = some m)
    (hsz : m.threshold ^ 2 < s.size) :
    s.addListener key ev cbId trace cbRaises =
      ({ s with handlerErrors := s.handlerErrors ++ [.ERR_LISTENER_REFUSAL] }, .noop) ∧
    ({ s with handlerErrors := s.handlerErrors ++ [.ERR_LISTENER_REFUSAL]
       : EmitterState }).listenersCountAll = s.listenersCountAll := by
  constructor
  · simp [EmitterState.addListener, EmitterState.checkLeakageBeforeAdd, hd, hm, hsz]
  · simp [EmitterState.listenersCountAll]

/-- Witness for C8: threshold 1 with (an inconsistent but sufficient)
recorded size 2 strictly exceeds the squared threshold. -/
theorem c8_refusal_gate_witness :
    ({ EmitterState.mkEmitter (some 1) with size := 2 } : EmitterState).addListener
        0 (EventState.emitterWrapRaw none false) 1 0 none =
      ({ EmitterState.mkEmitter (some 1) with
           size := 2
           handlerErrors := [.ERR_LISTENER_REFUSAL] }, .noop) := by
  have h := c8_refusal_gate
    ({ EmitterState.mkEmitter (some 1) with size := 2 }) ⟨1, [], 0⟩
    0 (EventState.emitterWrapRaw none false) 1 0 none
    (by decide) (by decide) (by decide)
  exact h.1

/-- C9: with a leakage monitor of threshold 3, seven registrations reusing
the identical call-site trace on one key invoke the error handler at least
once with `ERR_LISTENER_LEAK`, and the most-frequent-trace report then
names that trace with a count of at least 4. -/
theorem c9_leak_scenario :
    leakScenario.handlerErrors.contains .ERR_LISTENER_LEAK = true ∧
    ∃ c : Int, leakScenario.monitor.map LeakMonitor.getMostFrequent =
      some (some (7, c)) ∧ 4 ≤ c := by
  refine ⟨by decide, 5, by decide, by decide⟩

/-- C1: starting from a fresh (non-disposed) Emitter, after any finite
sequence of `on`, `once`, registration-handle dispose, `off`, `clear` and
emitter-dispose operations, `listenersCount()` equals the number of
currently-registered Bound Listeners across all keys — each removal
decrements the count exactly once whatever the removal path. -/
theorem c1_listener_count_invariant (cfg : Option Int) (ops : List EmitterOp) :
    (EmitterState.applyOps (EmitterState.mkEmitter cfg) ops).listenersCountAll =
      (((EmitterState.applyOps (EmitterState.mkEmitter cfg) ops).listeners.length : Int)) := by
  obtain ⟨h1, h2⟩ := inv_applyOps ops _ (inv_mkEmitter cfg)
  unfold EmitterState.listenersCountAll
  split
  · next hd =>
    rw [h2 hd]
    rfl
  · exact h1

/-- C4: firing a key on a non-disposed emitter catches every per-listener
failure: no exception ever escapes to the caller of `fire` (first
conjunct, with no hypotheses at all); the errors handed to the configured
error handler are exactly the non-silent callback failures of that key's
listeners in delivery order (so delivery continues past a failing
listener); and every listener whose delivery fails with
`ERR_ONCE_WAS_CALLED_AGAIN` or `ERR_RESOURCE_DISPOSED` is silently
removed from the table. -/
theorem c4_fire_error_handling (s : EmitterState) (k : Nat) :
    (s.fireKey k).2 = none ∧
    (s.disposed = false → s.size = (s.listeners.length : Int) →
      (s.listeners.map (fun r => r.id)).Nodup →
      ((s.fireKey k).1.handlerErrors = s.handlerErrors ++ s.forwardedOf k ∧
       ∀ r ∈ s.listeners, r.key = k → r.silentFail = true →
         (s.fireKey k).1.listeners.find? (fun x => decide (x.id = r.id)) = none)) := by
  constructor
  · unfold EmitterState.fireKey
    split
    · rfl
    · split
      · exact deliverList_ok _ s
      · rfl
  · intro hd hinv hnd
    unfold EmitterState.fireKey
    simp only [hd, Bool.false_eq_true, if_false]
    by_cases hsz : 0 < s.size
    · rw [if_pos hsz]
      set ids := (s.listeners.filter (fun r => r.key = k)).map (fun r => r.id) with hids
      have hsub : ids.Sublist (s.listeners.map (fun r => r.id)) :=
        (List.filter_sublist s.listeners).map (fun r => r.id)
      have hidnd : ids.Nodup := hnd.sublist hsub
      have hfind : ∀ r ∈ s.listeners.filter (fun r => r.key = k),
          s.listeners.find? (fun x => decide (x.id = r.id)) = some r := by
        intro r hr
        exact find_self_of_nodup s.listeners hnd r (List.mem_of_mem_filter hr)
      constructor
      · rw [deliverList_handlerErrors ids s hd hidnd, hids,
          expectedForwards_of_regs _ s hfind]
        rfl
      · intro r hr hk hsil
        have hrf : r ∈ s.listeners.filter (fun x => x.key = k) :=
          List.mem_filter.mpr ⟨hr, by simp [hk]⟩
        have hmemids : r.id ∈ ids := by
          rw [hids]
          exact List.mem_map_of_mem (fun x => x.id) hrf
        obtain ⟨pre, post, hsplit⟩ := List.append_of_mem hmemids
        have hnd2 : (pre ++ r.id :: post).Nodup := hsplit ▸ hidnd
        obtain ⟨hpre, hmid, hdisj⟩ := List.nodup_append.mp hnd2
        have hnotpre : r.id ∉ pre := fun hin =>
          hdisj hin (List.mem_cons_self _ _)
        have hnotpost : r.id ∉ post := (List.nodup_cons.mp hmid).1
        rw [hsplit, deliverList_append, deliverList_step]
        have hfind1 : (s.deliverList pre).1.listeners.find?
            (fun x => decide (x.id = r.id)) = some r := by
          rw [deliverList_find_other pre s r.id hnotpre]
          exact hfind r hrf
        have hinv1 : EmitterInv (s.deliverList pre).1 :=
          deliverList_inv pre s ⟨hinv, fun hc => absurd hc (by rw [hd]; simp)⟩
        have hd1 : (s.deliverList pre).1.disposed = false := by
          rw [deliverList_disposed]
          exact hd
        have hnd1 : ((s.deliverList pre).1.listeners.map (fun x => x.id)).Nodup :=
          deliverList_nodup pre s hnd
        have hstep := deliverOne_silent_find_none (s.deliverList pre).1 r
          hd1 hinv1.1 hnd1 hfind1 hsil
        rw [deliverList_find_other post _ r.id hnotpost]
        exact hstep
    · rw [if_neg hsz]
      have hlen : s.listeners = [] := by
        have hlen0 : s.listeners.length = 0 := by omega
        exact List.length_eq_zero.mp hlen0
      constructor
      · rw [EmitterState.forwardedOf, hlen]
        simp
      · intro r hr
        rw [hlen] at hr
        simp at hr

/-- Witness for C4 at a concrete two-listener emitter: the disposed
listener is silently removed and the other listener's non-silent failure
is forwarded, while fire itself raises nothing. -/
theorem c4_fire_error_handling_witness :
    (fireScenario.fireKey 0).2 = none ∧
    (fireScenario.fireKey 0).1.handlerErrors = [.ERR_UNKNOWN_ERROR] ∧
    (fireScenario.fireKey 0).1.listeners.find? (fun x => decide (x.id = 0)) = none := by
  have h := c4_fire_error_handling fireScenario 0
  have h2 := h.2 (by decide) (by decide) (by decide)
  refine ⟨h.1, ?_, ?_⟩
  · rw [h2.1]
    decide
  · exact h2.2
      (Reg.mk 0 0 1
        { disposed := true, once := false, cancelable := false, callCount := 0, sourceRequested := none }
        none)
      (by decide) (by decide) (by decide)
